import Mathlib

/-!
Verification of the evaluation/report pipeline of the
`oci-data-science-ai-samples` notebooks.

The notebooks' own code (the in-repo part) consists of the
`TwentyNewsDataset` loader and the custom metric `func1`, which are
embedded here directly from the source.  The pipeline operations that the
notebooks invoke (`train_test_split`, `ADSModel.from_estimator`,
`ADSEvaluator` with `calculate_cost`, `show_in_notebook`, `add_models`,
`del_models`, `add_metrics`, `del_metrics` and the `metrics` property)
live in the external library and are modelled from the specification's
contract for the pipeline.
-/

namespace EvalPipeline

/-- The pipeline's problem types, per the spec: binary classification,
multi-class classification, regression. -/
inductive ProblemType
  | binary
  | multiclass
  | regression
deriving DecidableEq, Repr

/-- Error kinds of the pipeline, per the spec's error-handling design. -/
inductive PipelineError
  | DataAccessError
  | InvalidParameterError
  | TrainingError
  | NotFoundError
  | UnsupportedOperationError
deriving DecidableEq, Repr

/-- A binary confusion matrix: true negatives, false positives,
false negatives, true positives. -/
structure ConfusionMatrix where
  tn : ℚ
  fp : ℚ
  fn : ℚ
  tp : ℚ
deriving DecidableEq, Repr

/-- Modelled from the spec: `calculate_cost(tn_weight, fp_weight,
fn_weight, tp_weight)` of `ADSEvaluator` (the implementation is in the
external evaluation library, not in this repository).  For binary
classification it computes the weighted sum over the confusion-matrix
cells; outside binary classification it fails with
`UnsupportedOperationError`. -/
def calculate_cost (pt : ProblemType) (cm : ConfusionMatrix)
    (tn_weight fp_weight fn_weight tp_weight : ℚ) : Except PipelineError ℚ :=
  if pt = ProblemType.binary then
    Except.ok (tn_weight * cm.tn + fp_weight * cm.fp +
               fn_weight * cm.fn + tp_weight * cm.tp)
  else
    Except.error PipelineError.UnsupportedOperationError

/-- Modelled from the spec: `split(dataset, test_fraction, seed?)`
(`train_test_split` of the external dataset library, not in this
repository).  A dataset is an ordered collection of rows, modelled by
their row identifiers.  The test partition holds the fraction
`test_size` of the rows rounded to the nearest whole row, the training
partition holds the rest; a `test_size` outside the open interval (0,1)
fails with `InvalidParameterError`. -/
def train_test_split (ds : List ℕ) (test_size : ℚ) :
    Except PipelineError (List ℕ × List ℕ) :=
  if 0 < test_size ∧ test_size < 1 then
    Except.ok (ds.drop (round ((ds.length : ℚ) * test_size)).toNat,
               ds.take (round ((ds.length : ℚ) * test_size)).toNat)
  else
    Except.error PipelineError.InvalidParameterError

/-- Modelled from the spec: a fitted model is an opaque trained artifact
(the training happens in the external library); for the wrap contract it
exposes whether it is a classifier, the class labels inferable from it
(if any), and a prediction capability on rows. -/
structure FittedModel where
  isClassifier : Bool
  inferredClasses : Option (List ℤ)
  predict : ℕ → ℤ

/-- A fitted model wrapped in the uniform prediction interface, together
with the class labels the evaluator will use (none for regressors). -/
structure WrappedModel where
  model : FittedModel
  classLabels : Option (List ℤ)

/-- Modelled from the spec: `wrap` / `ADSModel.from_estimator` (the
implementation is in the external library).  For a classifier the full
set of class labels must be supplied by the caller or inferable from the
model, else it fails with `InvalidParameterError`; a non-classifier
needs no labels. -/
def from_estimator (m : FittedModel) (classes : Option (List ℤ)) :
    Except PipelineError WrappedModel :=
  if m.isClassifier then
    match classes with
    | some cs => Except.ok ⟨m, some cs⟩
    | none =>
      match m.inferredClasses with
      | some cs => Except.ok ⟨m, some cs⟩
      | none => Except.error PipelineError.InvalidParameterError
  else
    Except.ok ⟨m, none⟩

/-- A labeled data partition: row identifiers and their true labels. -/
structure EvalData where
  rows : List ℕ
  labels : List ℤ

/-- A metric function: true values and predicted values to a scalar. -/
def Metric : Type := List ℤ → List ℤ → ℚ

/-- Modelled from the spec: the evaluator state held by `ADSEvaluator` —
problem type, test partition, optional training partition, and the two
ordered registries (model name to model, metric name to function). -/
structure Evaluator where
  problemType : ProblemType
  testData : EvalData
  trainData : Option EvalData
  modelRegistry : List (String × FittedModel)
  metricRegistry : List (String × Metric)

/-- Modelled from the spec: `build_report` computes every registered
metric for every registered model against the test partition; models and
metrics retain insertion order. -/
def build_report (e : Evaluator) : List (String × List (String × ℚ)) :=
  e.modelRegistry.map (fun mp =>
    (mp.1, e.metricRegistry.map (fun mq =>
      (mq.1, mq.2 e.testData.labels (e.testData.rows.map mp.2.predict)))))

/-- Modelled from the spec: reading the `metrics` property recomputes
the report from the registries' current contents and leaves the
evaluator state unchanged. -/
def read_metrics (e : Evaluator) :
    List (String × List (String × ℚ)) × Evaluator :=
  (build_report e, e)

/-- Modelled from the spec: `add_models` appends to the model registry
(insertion order preserved). -/
def add_models (e : Evaluator) (ms : List (String × FittedModel)) :
    Evaluator :=
  { e with modelRegistry := e.modelRegistry ++ ms }

/-- Modelled from the spec: `del_models` removes the entries with the
given names from the model registry. -/
def del_models (e : Evaluator) (names : List String) : Evaluator :=
  { e with modelRegistry :=
      e.modelRegistry.filter (fun mp => decide (mp.1 ∉ names)) }

/-- Modelled from the spec: `add_metrics(funcs, names)` appends the
named metric functions to the metric registry. -/
def add_metrics (e : Evaluator) (funcs : List Metric)
    (names : List String) : Evaluator :=
  { e with metricRegistry := e.metricRegistry ++ names.zip funcs }

/-- Modelled from the spec: `del_metrics` removes the entries with the
given names from the metric registry. -/
def del_metrics (e : Evaluator) (names : List String) : Evaluator :=
  { e with metricRegistry :=
      e.metricRegistry.filter (fun mq => decide (mq.1 ∉ names)) }

/-- The report's column structure: for each model row, the list of
metric names. -/
def report_columns (rep : List (String × List (String × ℚ))) :
    List (String × List String) :=
  rep.map (fun row => (row.1, row.2.map Prod.fst))

/-- The plot kinds offered by `show_in_notebook` across problem types. -/
inductive PlotKind
  | roc_curve
  | pr_curve
  | gain_chart
  | lift_chart
  | normalized_confusion_matrix
  | residuals_qq
  | residuals_vs_fitted
  | observed_vs_predicted
deriving DecidableEq, Repr

/-- Modelled from the spec: the menu of plot kinds available for each
problem type. -/
def supported_plots : ProblemType → List PlotKind
  | ProblemType.binary =>
      [PlotKind.roc_curve, PlotKind.pr_curve, PlotKind.gain_chart,
       PlotKind.lift_chart, PlotKind.normalized_confusion_matrix]
  | ProblemType.multiclass => [PlotKind.normalized_confusion_matrix]
  | ProblemType.regression =>
      [PlotKind.residuals_qq, PlotKind.residuals_vs_fitted,
       PlotKind.observed_vs_predicted]

/-- Modelled from the spec: `render` / `show_in_notebook` walks the
requested plot kinds in order and renders each one supported for the
active problem type; an unsupported kind is skipped (a no-op, never an
error).  The result is the list of plots actually rendered. -/
def show_in_notebook (pt : ProblemType) : List PlotKind → List PlotKind
  | [] => []
  | k :: rest =>
    if k ∈ supported_plots pt then k :: show_in_notebook pt rest
    else show_in_notebook pt rest

/-- The ASCII punctuation characters of Python's `string.punctuation`:
character codes 33–47, 58–64, 91–96 and 123–126. -/
def is_python_punct (c : Char) : Bool :=
  (33 ≤ c.toNat && c.toNat ≤ 47) || (58 ≤ c.toNat && c.toNat ≤ 64) ||
  (91 ≤ c.toNat && c.toNat ≤ 96) || (123 ≤ c.toNat && c.toNat ≤ 126)

/-- The fetched 20-newsgroups corpus as the notebook's
`TwentyNewsDataset` constructor stores it: raw documents, integer
targets, and the category names indexed by the targets. -/
structure NewsData where
  data : List String
  target : List ℕ
  target_names : List String

/-- `s.translate(str.maketrans("", "", string.punctuation))` from the
notebook: remove every ASCII punctuation character from `s`, leaving
all other characters unchanged and in order. -/
def remove_punct (s : String) : String :=
  ⟨s.data.filter (fun c => !(is_python_punct c))⟩

/-- `TwentyNewsDataset.load_data` from the notebook: build the label
list by indexing `target_names` with each entry of `target`, strip the
punctuation from every document, and return `(processed_data, labels)`. -/
def load_data (d : NewsData) : List String × List String :=
  (d.data.map remove_punct,
   d.target.map (fun x => d.target_names.getD x ""))

/-- `func1` from the notebook: `sum(y_true == y_pred)` on label vectors —
the elementwise equality comparison summed, i.e. the count of positions
where the two vectors agree. -/
def func1 (y_true y_pred : List ℤ) : ℕ :=
  (y_true.zip y_pred).countP (fun p => decide (p.1 = p.2))

end EvalPipeline

namespace EvalPipeline

/-- C1: on the fixed confusion matrix tn=50, fp=10, fn=5, tp=35,
`calculate_cost` with weights (0,1,1,0) returns 15 and with weights
(0,1,0.01,0) returns 10.05; in general on a binary evaluator it returns
the weighted sum tn_weight*tn + fp_weight*fp + fn_weight*fn +
tp_weight*tp over the confusion-matrix cells. -/
theorem calculate_cost_weighted_sum :
    calculate_cost ProblemType.binary ⟨50, 10, 5, 35⟩ 0 1 1 0 = Except.ok 15 ∧
    calculate_cost ProblemType.binary ⟨50, 10, 5, 35⟩ 0 1 (1/100) 0 =
      Except.ok (1005/100) ∧
    ∀ cm : ConfusionMatrix, ∀ a b c d : ℚ,
      calculate_cost ProblemType.binary cm a b c d =
        Except.ok (a * cm.tn + b * cm.fp + c * cm.fn + d * cm.tp) := by
  refine ⟨by norm_num [calculate_cost], by norm_num [calculate_cost], ?_⟩
  intro cm a b c d
  simp [calculate_cost]

/-- C8: `calculate_cost` fails with `UnsupportedOperationError` for every
problem type other than binary classification, and succeeds for binary
classification. -/
theorem calculate_cost_binary_only (pt : ProblemType) (cm : ConfusionMatrix)
    (a b c d : ℚ) (h : pt ≠ ProblemType.binary) :
    calculate_cost pt cm a b c d =
      Except.error PipelineError.UnsupportedOperationError ∧
    ∀ cm' : ConfusionMatrix, ∀ a' b' c' d' : ℚ,
      ∃ v : ℚ, calculate_cost ProblemType.binary cm' a' b' c' d' =
        Except.ok v := by
  refine ⟨by simp [calculate_cost, h], ?_⟩
  intro cm' a' b' c' d'
  exact ⟨a' * cm'.tn + b' * cm'.fp + c' * cm'.fn + d' * cm'.tp,
    by simp [calculate_cost]⟩

/-- C2: for every dataset of distinct rows and every test fraction in the
open interval (0,1), `train_test_split` succeeds with partitions that are
disjoint, whose concatenation is the original dataset, and whose test
size matches the requested fraction of the whole within rounding:
the difference between the test size and (train+test)*fraction is at
most one half row. -/
theorem train_test_split_partition (ds : List ℕ) (f : ℚ)
    (hnd : ds.Nodup) (h0 : 0 < f) (h1 : f < 1) :
    ∃ train test : List ℕ,
      train_test_split ds f = Except.ok (train, test) ∧
      train.Disjoint test ∧
      test ++ train = ds ∧
      |(test.length : ℚ) - ((train.length : ℚ) + (test.length : ℚ)) * f|
        ≤ 1/2 := by
  set n := ds.length with hn
  set r := round ((n : ℚ) * f) with hr
  have hfpos : (0 : ℚ) ≤ (n : ℚ) * f :=
    mul_nonneg (Nat.cast_nonneg n) h0.le
  have hrnn : 0 ≤ r := by
    rw [hr, round_eq]
    exact Int.le_floor.mpr (by push_cast; linarith)
  have hrle : r ≤ (n : ℤ) := by
    rw [hr, round_eq]
    refine Int.floor_le_iff.mpr ?_
    push_cast
    nlinarith [Nat.cast_nonneg (α := ℚ) n]
  have hkn : r.toNat ≤ n := by omega
  refine ⟨ds.drop r.toNat, ds.take r.toNat, ?_, ?_, ?_, ?_⟩
  · rw [train_test_split, if_pos ⟨h0, h1⟩, ← hn, ← hr]
  · exact List.disjoint_symm (List.disjoint_take_drop hnd le_rfl)
  · exact List.take_append_drop _ ds
  · have hlt : (ds.take r.toNat).length = r.toNat := by
      rw [List.length_take, ← hn]; omega
    have hld : (ds.drop r.toNat).length = n - r.toNat := by
      rw [List.length_drop, ← hn]
    rw [hlt, hld]
    have hsum : (n - r.toNat) + r.toNat = n := Nat.sub_add_cancel hkn
    have hcast : ((n - r.toNat : ℕ) : ℚ) + ((r.toNat : ℕ) : ℚ) = (n : ℚ) := by
      exact_mod_cast congrArg (Nat.cast (R := ℚ)) hsum
    rw [hcast]
    have htr : ((r.toNat : ℕ) : ℚ) = ((r : ℤ) : ℚ) := by
      exact_mod_cast Int.toNat_of_nonneg hrnn
    rw [htr]
    have h2 := abs_sub_round ((n : ℚ) * f)
    rw [← hr] at h2
    rw [abs_sub_comm] at h2
    exact h2

/-- Witness for C2: splitting the four-row dataset [0,1,2,3] at fraction
one half. -/
theorem train_test_split_partition_witness :
    ∃ train test : List ℕ,
      train_test_split [0, 1, 2, 3] (1/2) = Except.ok (train, test) ∧
      train.Disjoint test ∧
      test ++ train = [0, 1, 2, 3] ∧
      |(test.length : ℚ) - ((train.length : ℚ) + (test.length : ℚ)) * (1/2)|
        ≤ 1/2 :=
  train_test_split_partition [0, 1, 2, 3] (1/2) (by decide)
    (by norm_num) (by norm_num)

/-- Witness for C8: the multiclass problem type is rejected, at concrete
weights and matrix. -/
theorem calculate_cost_binary_only_witness :
    calculate_cost ProblemType.multiclass ⟨50, 10, 5, 35⟩ 0 1 1 0 =
      Except.error PipelineError.UnsupportedOperationError ∧
    ∀ cm' : ConfusionMatrix, ∀ a' b' c' d' : ℚ,
      ∃ v : ℚ, calculate_cost ProblemType.binary cm' a' b' c' d' =
        Except.ok v :=
  calculate_cost_binary_only ProblemType.multiclass ⟨50, 10, 5, 35⟩ 0 1 1 0
    (by decide)

/-- C3: wrapping a fitted classifier whose class labels are neither
supplied by the caller nor inferable from the model fails with
`InvalidParameterError`; wrapping with the full set of class labels
supplied always succeeds. -/
theorem from_estimator_requires_labels (m : FittedModel)
    (hc : m.isClassifier = true) (hi : m.inferredClasses = none) :
    from_estimator m none =
      Except.error PipelineError.InvalidParameterError ∧
    ∀ m' : FittedModel, ∀ cs : List ℤ,
      ∃ w : WrappedModel, from_estimator m' (some cs) = Except.ok w := by
  constructor
  · simp [from_estimator, hc, hi]
  · intro m' cs
    rcases hb : m'.isClassifier with _ | _
    · exact ⟨⟨m', none⟩, by simp [from_estimator, hb]⟩
    · exact ⟨⟨m', some cs⟩, by simp [from_estimator, hb]⟩

/-- Witness for C3: a classifier with no inferable classes is rejected
when no labels are supplied. -/
theorem from_estimator_requires_labels_witness :
    from_estimator ⟨true, none, fun _ => 0⟩ none =
      Except.error PipelineError.InvalidParameterError ∧
    ∀ m' : FittedModel, ∀ cs : List ℤ,
      ∃ w : WrappedModel, from_estimator m' (some cs) = Except.ok w :=
  from_estimator_requires_labels ⟨true, none, fun _ => 0⟩ rfl rfl

/-- C4: reading the `metrics` report twice with no intervening registry
or data change yields identical tables — the report is recomputed purely
from the evaluator state and reading leaves that state unchanged. -/
theorem read_metrics_idempotent (e : Evaluator) :
    (read_metrics ((read_metrics e).2)).1 = (read_metrics e).1 ∧
    (read_metrics e).2 = e :=
  ⟨rfl, rfl⟩

/-- C5: adding a model under a name not already registered and then
deleting that name restores the report to exactly its prior content. -/
theorem add_del_models_round_trip (e : Evaluator) (nm : String)
    (m : FittedModel) (h : nm ∉ e.modelRegistry.map Prod.fst) :
    build_report (del_models (add_models e [(nm, m)]) [nm]) =
      build_report e := by
  have hreg : (e.modelRegistry ++ [(nm, m)]).filter
      (fun mp => decide (mp.1 ∉ [nm])) = e.modelRegistry := by
    rw [List.filter_append]
    have h1 : e.modelRegistry.filter (fun mp => decide (mp.1 ∉ [nm])) =
        e.modelRegistry := by
      apply List.filter_eq_self.mpr
      intro a ha
      simp only [decide_eq_true_eq, List.mem_singleton]
      intro hcon
      exact h (by simpa [hcon] using List.mem_map_of_mem Prod.fst ha)
    have h2 : ([(nm, m)] : List (String × FittedModel)).filter
        (fun mp => decide (mp.1 ∉ [nm])) = [] := by simp
    rw [h1, h2, List.append_nil]
  have heval : del_models (add_models e [(nm, m)]) [nm] = e := by
    show { e with modelRegistry :=
      ((e.modelRegistry ++ [(nm, m)]).filter (fun mp => decide (mp.1 ∉ [nm]))) } = e
    rw [hreg]
  rw [heval]

/-- Witness for C5: the round trip on an evaluator with an empty model
registry and a fresh model name. -/
theorem add_del_models_round_trip_witness :
    build_report (del_models (add_models
        ⟨ProblemType.binary, ⟨[0], [1]⟩, none, [], []⟩
        [("DecisionTreeClassifier", ⟨true, none, fun _ => 0⟩)])
      ["DecisionTreeClassifier"]) =
      build_report ⟨ProblemType.binary, ⟨[0], [1]⟩, none, [], []⟩ :=
  add_del_models_round_trip ⟨ProblemType.binary, ⟨[0], [1]⟩, none, [], []⟩
    "DecisionTreeClassifier" ⟨true, none, fun _ => 0⟩ (by simp)

/-- C6: adding metric functions under fresh names and then deleting the
same names restores the report — in particular its column set — to
exactly its prior state. -/
theorem add_del_metrics_round_trip (e : Evaluator) (funcs : List Metric)
    (ns : List String)
    (h : ∀ nm ∈ ns, nm ∉ e.metricRegistry.map Prod.fst) :
    report_columns (build_report (del_metrics (add_metrics e funcs ns) ns)) =
      report_columns (build_report e) ∧
    build_report (del_metrics (add_metrics e funcs ns) ns) =
      build_report e := by
  have hreg : (e.metricRegistry ++ ns.zip funcs).filter
      (fun mq => decide (mq.1 ∉ ns)) = e.metricRegistry := by
    rw [List.filter_append]
    have h1 : e.metricRegistry.filter (fun mq => decide (mq.1 ∉ ns)) =
        e.metricRegistry := by
      apply List.filter_eq_self.mpr
      intro a ha
      simp only [decide_eq_true_eq]
      intro hcon
      exact h a.1 hcon (List.mem_map_of_mem Prod.fst ha)
    have h2 : (ns.zip funcs).filter (fun mq => decide (mq.1 ∉ ns)) = [] := by
      apply List.filter_eq_nil_iff.mpr
      intro a ha
      obtain ⟨x, y⟩ := a
      simp only [decide_eq_true_eq, not_not]
      exact (List.of_mem_zip ha).1
    rw [h1, h2, List.append_nil]
  have heval : del_metrics (add_metrics e funcs ns) ns = e := by
    show { e with metricRegistry :=
      ((e.metricRegistry ++ ns.zip funcs).filter (fun mq => decide (mq.1 ∉ ns))) } = e
    rw [hreg]
  rw [heval]
  exact ⟨rfl, rfl⟩

/-- Witness for C6: the round trip on an evaluator with an empty metric
registry and the notebook's fresh metric names. -/
theorem add_del_metrics_round_trip_witness :
    report_columns (build_report (del_metrics (add_metrics
        ⟨ProblemType.binary, ⟨[0], [1]⟩, none, [], []⟩
        [fun _ _ => 0, fun _ _ => 1] ["Total True", "F2 Score"])
      ["Total True", "F2 Score"])) =
      report_columns (build_report
        ⟨ProblemType.binary, ⟨[0], [1]⟩, none, [], []⟩) ∧
    build_report (del_metrics (add_metrics
        ⟨ProblemType.binary, ⟨[0], [1]⟩, none, [], []⟩
        [fun _ _ => 0, fun _ _ => 1] ["Total True", "F2 Score"])
      ["Total True", "F2 Score"]) =
      build_report ⟨ProblemType.binary, ⟨[0], [1]⟩, none, [], []⟩ :=
  add_del_metrics_round_trip ⟨ProblemType.binary, ⟨[0], [1]⟩, none, [], []⟩
    [fun _ _ => 0, fun _ _ => 1] ["Total True", "F2 Score"] (by simp)

/-- Helper: removing a plot kind unsupported for the problem type from
the request does not change what `show_in_notebook` renders. -/
theorem show_in_notebook_drop_unsupported (pt : ProblemType) (k : PlotKind)
    (h : k ∉ supported_plots pt) :
    ∀ req : List PlotKind,
      show_in_notebook pt req =
        show_in_notebook pt (req.filter (fun j => decide (j ≠ k))) := by
  intro req
  induction req with
  | nil => rfl
  | cons j rest ih =>
    rw [List.filter_cons]
    by_cases hj : j = k
    · subst hj
      rw [if_neg (by simp), show_in_notebook, if_neg h]
      exact ih
    · rw [if_pos (by simpa using hj)]
      by_cases hs : j ∈ supported_plots pt
      · rw [show_in_notebook, if_pos hs, show_in_notebook, if_pos hs, ih]
      · rw [show_in_notebook, if_neg hs, show_in_notebook, if_neg hs, ih]

/-- Helper: every requested plot kind supported for the problem type is
rendered by `show_in_notebook`. -/
theorem show_in_notebook_renders_supported (pt : ProblemType) :
    ∀ req : List PlotKind, ∀ j ∈ req,
      j ∈ supported_plots pt → j ∈ show_in_notebook pt req := by
  intro req
  induction req with
  | nil => intro j hj; cases hj
  | cons a rest ih =>
    intro j hj hs
    rcases List.mem_cons.mp hj with hja | hjr
    · subst hja
      rw [show_in_notebook, if_pos hs]
      exact List.mem_cons_self _ _
    · by_cases ha : a ∈ supported_plots pt
      · rw [show_in_notebook, if_pos ha]
        exact List.mem_cons_of_mem _ (ih j hjr hs)
      · rw [show_in_notebook, if_neg ha]
        exact ih j hjr hs

/-- C7: a requested plot kind unsupported for the active problem type is
treated as a no-op by `show_in_notebook`: rendering never fails (it is a
total function), dropping the unsupported kind from the request leaves
the rendered output unchanged, and every supported requested kind is
still rendered. -/
theorem show_in_notebook_unsupported_no_op (pt : ProblemType)
    (req : List PlotKind) (k : PlotKind) (h : k ∉ supported_plots pt) :
    show_in_notebook pt req =
      show_in_notebook pt (req.filter (fun j => decide (j ≠ k))) ∧
    ∀ j ∈ req, j ∈ supported_plots pt → j ∈ show_in_notebook pt req :=
  ⟨show_in_notebook_drop_unsupported pt k h req,
   show_in_notebook_renders_supported pt req⟩

/-- Witness for C7: requesting the regression-only `residuals_qq` plot
alongside an ROC curve on a binary classifier. -/
theorem show_in_notebook_unsupported_no_op_witness :
    show_in_notebook ProblemType.binary
        [PlotKind.residuals_qq, PlotKind.roc_curve] =
      show_in_notebook ProblemType.binary
        (([PlotKind.residuals_qq, PlotKind.roc_curve]).filter
          (fun j => decide (j ≠ PlotKind.residuals_qq))) ∧
    ∀ j ∈ [PlotKind.residuals_qq, PlotKind.roc_curve],
      j ∈ supported_plots ProblemType.binary →
        j ∈ show_in_notebook ProblemType.binary
          [PlotKind.residuals_qq, PlotKind.roc_curve] :=
  show_in_notebook_unsupported_no_op ProblemType.binary
    [PlotKind.residuals_qq, PlotKind.roc_curve] PlotKind.residuals_qq
    (by decide)

/-- Helper: within range, `getD` on a mapped list applies the function to
the corresponding element, whatever the defaults. -/
theorem getD_map_of_lt {α β : Type} (f : α → β) (l : List α) (d1 : β)
    (d2 : α) (i : ℕ) (h : i < l.length) :
    (l.map f).getD i d1 = f (l.getD i d2) := by
  have h' : i < (l.map f).length := by simpa using h
  rw [List.getD_eq_getElem _ _ h', List.getD_eq_getElem _ _ h,
    List.getElem_map]

/-- C9: `load_data` returns a pair (processed documents, labels), both of
length equal to the number of fetched documents; each processed document
is the original with exactly the `string.punctuation` characters removed
and all other characters unchanged and in order; each label is
`target_names` indexed by the corresponding entry of `target`. -/
theorem load_data_spec (d : NewsData)
    (h : d.target.length = d.data.length) :
    (load_data d).1.length = d.data.length ∧
    (load_data d).2.length = d.data.length ∧
    (∀ i, i < d.data.length →
      ((load_data d).1.getD i "").data =
        (d.data.getD i "").data.filter (fun c => !(is_python_punct c))) ∧
    (∀ i, i < d.data.length →
      (load_data d).2.getD i "" =
        d.target_names.getD (d.target.getD i 0) "") := by
  refine ⟨by simp [load_data], by simp [load_data, h], ?_, ?_⟩
  · intro i hi
    have hx := getD_map_of_lt remove_punct d.data "" "" i hi
    show ((d.data.map remove_punct).getD i "").data = _
    rw [hx]
    rfl
  · intro i hi
    have hi' : i < d.target.length := by rw [h]; exact hi
    exact getD_map_of_lt (fun x => d.target_names.getD x "") d.target
      "" 0 i hi'

/-- Helper: `func1` of a vector with itself counts every position. -/
theorem func1_self_eq_length (l : List ℤ) : func1 l l = l.length := by
  induction l with
  | nil => rfl
  | cons a t ih =>
    simp only [func1] at ih ⊢
    rw [List.zip_cons_cons, List.countP_cons]
    simp [ih]

/-- Helper: on equal-length vectors, `func1` equals the number of indices
at which the two vectors agree. -/
theorem func1_eq_agree_count : ∀ (a b : List ℤ), a.length = b.length →
    func1 a b = ((List.range a.length).filter
      (fun i => decide (a.getD i 0 = b.getD i 0))).length := by
  intro a
  induction a with
  | nil =>
    intro b h
    have hb : b = [] := List.length_eq_zero.mp h.symm
    subst hb
    rfl
  | cons x xs ih =>
    intro b h
    cases b with
    | nil => simp at h
    | cons y ys =>
      have h' : xs.length = ys.length := by simpa using h
      have ihx := ih ys h'
      have hstep1 : func1 (x :: xs) (y :: ys) =
          func1 xs ys + if x = y then 1 else 0 := by
        simp only [func1, List.zip_cons_cons, List.countP_cons]
        by_cases hxy : x = y <;> simp [hxy]
      have hstep2 : ((List.range (x :: xs).length).filter
            (fun i => decide ((x :: xs).getD i 0 = (y :: ys).getD i 0))).length
          = ((List.range xs.length).filter
              (fun i => decide (xs.getD i 0 = ys.getD i 0))).length +
            if x = y then 1 else 0 := by
        rw [List.length_cons, List.range_succ_eq_map, List.filter_cons,
          List.filter_map]
        have hcomp : List.filter
            ((fun i => decide ((x :: xs).getD i 0 = (y :: ys).getD i 0))
              ∘ Nat.succ) (List.range xs.length) =
            List.filter (fun i => decide (xs.getD i 0 = ys.getD i 0))
              (List.range xs.length) := by
          apply List.filter_congr
          intro i _
          simp
        rw [hcomp]
        by_cases hxy : x = y
        · rw [if_pos (by simp [hxy])]
          simp [hxy]
        · rw [if_neg (by simp [hxy])]
          simp [hxy]
      rw [hstep1, hstep2, ihx]

/-- Witness for C9: a concrete two-document corpus. -/
theorem load_data_spec_witness :
    (load_data ⟨["a, b!", "c.d"], [1, 0], ["autos", "med"]⟩).1.length =
      (["a, b!", "c.d"] : List String).length ∧
    (load_data ⟨["a, b!", "c.d"], [1, 0], ["autos", "med"]⟩).2.length =
      (["a, b!", "c.d"] : List String).length ∧
    (∀ i, i < (["a, b!", "c.d"] : List String).length →
      ((load_data ⟨["a, b!", "c.d"], [1, 0], ["autos", "med"]⟩).1.getD i
          "").data =
        ((["a, b!", "c.d"] : List String).getD i "").data.filter
          (fun c => !(is_python_punct c))) ∧
    (∀ i, i < (["a, b!", "c.d"] : List String).length →
      (load_data ⟨["a, b!", "c.d"], [1, 0], ["autos", "med"]⟩).2.getD i "" =
        (["autos", "med"] : List String).getD
          (([1, 0] : List ℕ).getD i 0) "") :=
  load_data_spec ⟨["a, b!", "c.d"], [1, 0], ["autos", "med"]⟩ rfl

/-- C10: on equal-length label vectors `func1` returns the number of
indices at which the two vectors agree; in particular `func1 y y` is the
length of `y`, and the result never exceeds the length of the vectors. -/
theorem func1_counts_agreements (y_true y_pred : List ℤ)
    (h : y_true.length = y_pred.length) :
    func1 y_true y_pred =
      ((List.range y_true.length).filter
        (fun i => decide (y_true.getD i 0 = y_pred.getD i 0))).length ∧
    func1 y_true y_true = y_true.length ∧
    func1 y_true y_pred ≤ y_true.length := by
  refine ⟨func1_eq_agree_count y_true y_pred h,
    func1_self_eq_length y_true, ?_⟩
  have h1 : func1 y_true y_pred ≤ (y_true.zip y_pred).length :=
    List.countP_le_length _
  have h2 : (y_true.zip y_pred).length ≤ y_true.length := by
    rw [List.length_zip]
    exact min_le_left _ _
  exact le_trans h1 h2

/-- Witness for C10: concrete vectors agreeing at two of three indices. -/
theorem func1_counts_agreements_witness :
    func1 [1, 2, 3] [1, 5, 3] =
      ((List.range ([1, 2, 3] : List ℤ).length).filter
        (fun i => decide (([1, 2, 3] : List ℤ).getD i 0 =
          ([1, 5, 3] : List ℤ).getD i 0))).length ∧
    func1 [1, 2, 3] [1, 2, 3] = ([1, 2, 3] : List ℤ).length ∧
    func1 [1, 2, 3] [1, 5, 3] ≤ ([1, 2, 3] : List ℤ).length :=
  func1_counts_agreements [1, 2, 3] [1, 5, 3] rfl

end EvalPipeline
